import Mathlib

/-!
Verification of the deduplicating asynchronous query coordinator
(`SystemInfoProvider<T>` in
`chrome/browser/extensions/api/system_info/system_info_provider.h`) and of
the SQLite integrity diagnostic
(`SqliteIntegrityTest::ExecuteImpl` in
`chrome/browser/diagnostics/sqlite_diagnostics.cc`).

The coordinator's control-thread behaviour is embedded as explicit state
passing over `ProviderState`, whose fields mirror the C++ members
`callbacks_` and `is_waiting_for_completion_`, plus instrumentation
counters for how many times the query operation was dispatched and the
preparation hook ran, and an event log of callback invocations.

A completion callback is modelled by the inductive `Cb`: its `id` labels
the callback, and `reenq` lists the callbacks it passes to re-entrant
`StartQueryInfo` calls made during its own invocation (finitely many per
invocation, each again of type `Cb`).
-/

namespace SystemInfoProvider

/-- A completion callback: `mk id reenq` invokes as `callback.Run(success)`,
    records the event `(id, success)`, and then calls
    `StartQueryInfo cb2` for each `cb2` in `reenq`, in order. -/
inductive Cb : Type where
  | mk : Nat → List Cb → Cb

/-- The label of a callback. -/
def Cb.id : Cb → Nat
  | .mk i _ => i

/-- The callbacks a callback re-enqueues during its own invocation. -/
def Cb.reenq : Cb → List Cb
  | .mk _ cs => cs

mutual

/-- Size of a callback tree: itself plus everything it transitively
    re-enqueues. -/
def Cb.size : Cb → Nat
  | .mk _ cs => 1 + Cb.sizeList cs

/-- Total size of a list of callback trees. -/
def Cb.sizeList : List Cb → Nat
  | [] => 0
  | c :: cs => Cb.size c + Cb.sizeList cs

end

mutual

/-- All callback labels registered by draining a callback: its own label
    followed by everything its re-enqueued callbacks register. -/
def Cb.allIds : Cb → List Nat
  | .mk i cs => i :: Cb.allIdsList cs

/-- All callback labels registered by a list of callbacks. -/
def Cb.allIdsList : List Cb → List Nat
  | [] => []
  | c :: cs => Cb.allIds c ++ Cb.allIdsList cs

end

/-- The control-thread state of a `SystemInfoProvider` instance.
    `callbacks` is `callbacks_` (front of the `std::queue` at the head),
    `is_waiting_for_completion` is `is_waiting_for_completion_`;
    `dispatch_count` counts how many query-info tasks have been posted to
    the worker pool, `prepare_count` how many times
    `PrepareQueryOnUIThread` ran, and `events` logs each callback
    invocation `(id, success)` in order. -/
structure ProviderState where
  callbacks : List Cb
  is_waiting_for_completion : Bool
  dispatch_count : Nat
  prepare_count : Nat
  events : List (Nat × Bool)

/-- `StartQueryInfoPostInitialization`: runs `PrepareQueryOnUIThread` and
    posts the `QueryInfo` task to the sequenced worker pool (with
    `OnQueryCompleted` as the reply). -/
def StartQueryInfoPostInitialization (s : ProviderState) : ProviderState :=
  { s with prepare_count := s.prepare_count + 1,
           dispatch_count := s.dispatch_count + 1 }

/-- The default `InitializeProvider`: runs `do_query_info_callback`
    directly. -/
def InitializeProvider (do_query_info_callback : ProviderState → ProviderState)
    (s : ProviderState) : ProviderState :=
  do_query_info_callback s

/-- `StartQueryInfo(callback)`: pushes the callback, returns if a query is
    already in flight, otherwise sets the flag and runs
    `InitializeProvider` bound to `StartQueryInfoPostInitialization`. -/
def StartQueryInfo (cb : Cb) (s : ProviderState) : ProviderState :=
  let s1 : ProviderState := { s with callbacks := s.callbacks ++ [cb] }
  if s1.is_waiting_for_completion then s1
  else
    InitializeProvider StartQueryInfoPostInitialization
      { s1 with is_waiting_for_completion := true }

/-- Folds `StartQueryInfo` over a list of callbacks, in order. -/
def startAll (cbs : List Cb) (s : ProviderState) : ProviderState :=
  cbs.foldl (fun t c => StartQueryInfo c t) s

/-- `callback.Run(success)` for the modelled callbacks: log the event and
    perform the re-entrant `StartQueryInfo` calls. -/
def runCallback (success : Bool) (c : Cb) (s : ProviderState) : ProviderState :=
  startAll c.reenq { s with events := s.events ++ [(c.id, success)] }

/-- Drop the front of the queue (`callbacks_.pop()`). -/
def popFront (s : ProviderState) : ProviderState :=
  { s with callbacks := s.callbacks.tail }

/-- The drain loop of `OnQueryCompleted`: while the queue is non-empty,
    take the front callback, run it with `success` (the front is still in
    the queue while it runs, as in the source), then pop it. -/
def drainLoop (success : Bool) (s : ProviderState) : ProviderState :=
  match h : s.callbacks with
  | [] => s
  | c :: _ => drainLoop success (popFront (runCallback success c s))
termination_by Cb.sizeList s.callbacks
decreasing_by
  have hstart : ∀ (cs : List Cb) (t : ProviderState),
      (startAll cs t).callbacks = t.callbacks ++ cs := by
    intro cs
    induction cs with
    | nil => intro t; simp [startAll]
    | cons d ds ih =>
        intro t
        show (startAll ds (StartQueryInfo d t)).callbacks = _
        rw [ih]
        have hone : (StartQueryInfo d t).callbacks = t.callbacks ++ [d] := by
          simp only [StartQueryInfo, InitializeProvider,
            StartQueryInfoPostInitialization]
          split <;> rfl
        rw [hone]
        simp
  have happ : ∀ (a b : List Cb),
      Cb.sizeList (a ++ b) = Cb.sizeList a + Cb.sizeList b := by
    intro a b
    induction a with
    | nil => simp [Cb.sizeList]
    | cons d ds ih => simp [Cb.sizeList, ih]; omega
  simp only [popFront, runCallback, hstart, h, List.cons_append,
    List.tail_cons, happ]
  cases c with
  | mk i cs =>
      simp only [Cb.reenq, Cb.sizeList, Cb.size]
      omega

/-- `OnQueryCompleted(success)`: drain the queue, then clear
    `is_waiting_for_completion_`. -/
def OnQueryCompleted (success : Bool) (s : ProviderState) : ProviderState :=
  let s1 := drainLoop success s
  { s1 with is_waiting_for_completion := false }

/-- The sequence of `(id, success)` invocation events produced by the drain
    loop on a queue: front first, with its re-enqueued callbacks appended
    at the back of the remaining queue. -/
def drain (success : Bool) (q : List Cb) : List (Nat × Bool) :=
  match q with
  | [] => []
  | c :: rest => (c.id, success) :: drain success (rest ++ c.reenq)
termination_by Cb.sizeList q
decreasing_by
  have happ : ∀ (a b : List Cb),
      Cb.sizeList (a ++ b) = Cb.sizeList a + Cb.sizeList b := by
    intro a b
    induction a with
    | nil => simp [Cb.sizeList]
    | cons d ds ih => simp [Cb.sizeList, ih]; omega
  simp only [happ]
  cases c with
  | mk i cs =>
      simp only [Cb.reenq, Cb.sizeList, Cb.size]
      omega

/-- The labels, in order, of the callbacks the drain loop invokes on a
    queue. -/
def drainIds (q : List Cb) : List Nat :=
  match q with
  | [] => []
  | c :: rest => c.id :: drainIds (rest ++ c.reenq)
termination_by Cb.sizeList q
decreasing_by
  have happ : ∀ (a b : List Cb),
      Cb.sizeList (a ++ b) = Cb.sizeList a + Cb.sizeList b := by
    intro a b
    induction a with
    | nil => simp [Cb.sizeList]
    | cons d ds ih => simp [Cb.sizeList, ih]; omega
  simp only [happ]
  cases c with
  | mk i cs =>
      simp only [Cb.reenq, Cb.sizeList, Cb.size]
      omega

/-- Concatenation of the re-enqueue lists of a queue of callbacks. -/
def reenqAll : List Cb → List Cb
  | [] => []
  | c :: cs => c.reenq ++ reenqAll cs

/-- A control-thread operation on the provider: a `StartQueryInfo` call or
    delivery of the query result by the worker pool. -/
inductive Op : Type where
  | start (cb : Cb)
  | complete (success : Bool)

/-- Apply one control-thread operation. -/
def applyOp (s : ProviderState) : Op → ProviderState
  | .start cb => StartQueryInfo cb s
  | .complete success => OnQueryCompleted success s

/-- Run a sequence of control-thread operations. -/
def run (ops : List Op) (s : ProviderState) : ProviderState :=
  ops.foldl applyOp s

/-- The provider state right after construction: empty queue, flag down,
    nothing dispatched, nothing logged. -/
def initState : ProviderState :=
  { callbacks := [], is_waiting_for_completion := false,
    dispatch_count := 0, prepare_count := 0, events := [] }

/-- The queue/flag invariant: whenever the in-flight flag is down the
    callback queue is empty. -/
def QueueFlagInv (s : ProviderState) : Prop :=
  s.is_waiting_for_completion = false → s.callbacks = []

/-- Modelled from the spec: the worker-pool dispatch path
    (`base::PostTaskAndReplyWithResult` over the `CONTINUE_ON_SHUTDOWN`
    sequenced task runner built in the constructor) is not part of the
    sources under verification. Following §4.3/§5 of the spec, if the pool
    can schedule the task the query operation runs and its boolean result
    is delivered to `OnQueryCompleted`; if it cannot (shutdown in
    progress), the non-schedulable dispatch is treated as a failure
    outcome delivered to `OnQueryCompleted` as `false`. -/
def RunQueryDispatch (schedulable : Bool) (queryResult : Bool)
    (s : ProviderState) : ProviderState :=
  if schedulable then OnQueryCompleted queryResult s
  else OnQueryCompleted false s

/-- Fuel-indexed version of the drain loop over modelled callbacks:
    returns `some` events when the loop finishes within `fuel` iterations,
    `none` otherwise. -/
def drainFuelCb (success : Bool) : Nat → List Cb → Option (List (Nat × Bool))
  | _, [] => some []
  | 0, _ :: _ => none
  | fuel + 1, c :: rest =>
      (drainFuelCb success fuel (rest ++ c.reenq)).map
        (fun l => (c.id, success) :: l)

/-- Fuel-indexed drain loop over callbacks given by an arbitrary
    re-enqueue behaviour `beh`: callback `i`, when invoked, re-enqueues
    the callbacks `beh i`. Unlike `Cb`, `beh` can describe a callback that
    unconditionally calls `StartQueryInfo` again from inside its own
    invocation. -/
def drainFuelB (beh : Nat → List Nat) (success : Bool) :
    Nat → List Nat → Option (List (Nat × Bool))
  | _, [] => some []
  | 0, _ :: _ => none
  | fuel + 1, i :: rest =>
      (drainFuelB beh success fuel (rest ++ beh i)).map
        (fun l => (i, success) :: l)

/-- The behaviour of a callback that unconditionally re-requests: invoking
    callback `i` re-enqueues callback `i` again. -/
def behCycle : Nat → List Nat := fun i => [i]

/-- The `base::LazyInstance<scoped_refptr<SystemInfoProvider<T>>>` holder
    `provider_`: `slot` is the currently held instance (`none` when the
    `scoped_refptr` is null), and `next_id` numbers the instances `new I()`
    would construct, so that constructions are observable. -/
structure Registry where
  slot : Option Nat
  next_id : Nat

/-- `GetInstance`: if the held pointer is null, construct a new instance
    and store it; return the held instance and the updated holder. -/
def GetInstance (r : Registry) : Nat × Registry :=
  match r.slot with
  | some p => (p, r)
  | none => (r.next_id, { slot := some r.next_id, next_id := r.next_id + 1 })

/-- `InitializeForTesting(provider)`: stores the given (non-null) instance
    in the holder. -/
def InitializeForTesting (provider : Nat) (r : Registry) : Registry :=
  { r with slot := some provider }

/-- The holder before any use: null pointer, no instance constructed. -/
def emptyRegistry : Registry := { slot := none, next_id := 0 }

/-- A plain callback that does not re-request. -/
def cbW : Cb := Cb.mk 0 []

/-- A second plain callback. -/
def cbX : Cb := Cb.mk 1 []

/-- A re-entrant callback: when invoked, it calls `StartQueryInfo` again
    with callback 3. -/
def cbR : Cb := Cb.mk 2 [Cb.mk 3 []]

/-- A state with a query in flight and two callbacks queued, the second of
    which re-requests. -/
def sWaiting : ProviderState :=
  { callbacks := [cbX, cbR], is_waiting_for_completion := true,
    dispatch_count := 1, prepare_count := 1, events := [] }

end SystemInfoProvider

namespace SqliteDiagnostics

/-- Outcome recorded by `SqliteIntegrityTest::ExecuteImpl`, mirroring the
    `DIAG_SQLITE_*` outcome codes it records. -/
inductive SqliteOutcome : Type where
  | fileNotFound
  | fileNotFoundOk
  | cannotOpenDb
  | errorHandlerCalled
  | dbLocked
  | pragmaFailed (error : Int)
  | dbCorrupted (errors : Nat)
  | success
deriving DecidableEq

/-- `SQLITE_BUSY` from sqlite3.h. -/
def SQLITE_BUSY : Int := 5

/-- The observable behaviour of the database file and the sql layer for
    one run of the integrity test: whether the (resolved) path exists,
    whether `Open` succeeds, whether the error callback has fired at each
    of the three points it is polled, whether the prepared
    `PRAGMA integrity_check` statement is valid, the connection error code
    read when it is not, and the first-column strings of the stepped
    result rows. -/
structure DbEnv where
  pathExists : Bool
  openOk : Bool
  errorAfterOpen : Bool
  errorAfterPrepare : Bool
  statementValid : Bool
  errorCode : Int
  rows : List String
  errorAfterStep : Bool

/-- Number of integrity rows whose first column is not `"ok"`: the value
    of the `errors` counter after the step loop. -/
def countNonOk (rows : List String) : Nat :=
  (rows.filter (fun r => r ≠ "ok")).length

/-- `SqliteIntegrityTest::ExecuteImpl`, branch for branch: missing file
    (critical or not), failed open, the three error-recorder polls, the
    locked/pragma-failed split on an invalid statement, the corruption
    count, and success. -/
def ExecuteImpl (critical : Bool) (env : DbEnv) : SqliteOutcome :=
  if !env.pathExists then
    if critical then .fileNotFound else .fileNotFoundOk
  else if !env.openOk then .cannotOpenDb
  else if env.errorAfterOpen then .errorHandlerCalled
  else if env.errorAfterPrepare then .errorHandlerCalled
  else if !env.statementValid then
    if env.errorCode = SQLITE_BUSY then .dbLocked
    else .pragmaFailed env.errorCode
  else if env.errorAfterStep then .errorHandlerCalled
  else if countNonOk env.rows ≠ 0 then .dbCorrupted (countNonOk env.rows)
  else .success

/-- Membership in the outcome set `{ok, corrupted(n), notFound,
    cannotOpen, locked}` named by the claim, reading both not-found
    outcome codes as `notFound`. -/
def inClaimedOutcomeSet : SqliteOutcome → Bool
  | .success => true
  | .dbCorrupted _ => true
  | .fileNotFound => true
  | .fileNotFoundOk => true
  | .cannotOpenDb => true
  | .dbLocked => true
  | .errorHandlerCalled => false
  | .pragmaFailed _ => false

/-- The outcome alphabet of the spec-level `CheckIntegrity`, extended with
    the two outcomes the code can also produce. -/
inductive SpecOutcome : Type where
  | ok
  | corrupted (n : Nat)
  | notFound
  | cannotOpen
  | locked
  | handlerError
  | pragmaFail (error : Int)
deriving DecidableEq

/-- Spec-level classification of one run, following the spec's words for
    `CheckIntegrity(path)` with the two extra outcomes: a missing file is
    `notFound`, a failed open is `cannotOpen`, a fired error callback is
    `handlerError`, a statement that cannot be prepared is `locked` on
    `SQLITE_BUSY` and `pragmaFail` otherwise, `n > 0` non-`"ok"` rows is
    `corrupted(n)`, and otherwise `ok`. -/
def CheckIntegrity (env : DbEnv) : SpecOutcome :=
  if !env.pathExists then .notFound
  else if !env.openOk then .cannotOpen
  else if env.errorAfterOpen || env.errorAfterPrepare then .handlerError
  else if !env.statementValid then
    if env.errorCode = SQLITE_BUSY then .locked
    else .pragmaFail env.errorCode
  else if env.errorAfterStep then .handlerError
  else if 0 < countNonOk env.rows then .corrupted (countNonOk env.rows)
  else .ok

/-- Reading of an implementation outcome at the spec's alphabet: both
    not-found codes collapse to `notFound`. -/
def toSpecOutcome : SqliteOutcome → SpecOutcome
  | .fileNotFound => .notFound
  | .fileNotFoundOk => .notFound
  | .cannotOpenDb => .cannotOpen
  | .errorHandlerCalled => .handlerError
  | .dbLocked => .locked
  | .pragmaFailed e => .pragmaFail e
  | .dbCorrupted n => .corrupted n
  | .success => .ok

/-- A run in which the file exists, the database opens, the error callback
    never fires, and preparing the integrity pragma fails with error code
    1 (`SQLITE_ERROR`, not `SQLITE_BUSY`). -/
def cexEnv : DbEnv :=
  { pathExists := true, openOk := true, errorAfterOpen := false,
    errorAfterPrepare := false, statementValid := false, errorCode := 1,
    rows := [], errorAfterStep := false }

end SqliteDiagnostics

namespace SystemInfoProvider

theorem Cb.size_def (c : Cb) : c.size = 1 + Cb.sizeList c.reenq := by
  cases c with
  | mk i cs => rfl

theorem Cb.sizeList_append (a b : List Cb) :
    Cb.sizeList (a ++ b) = Cb.sizeList a + Cb.sizeList b := by
  induction a with
  | nil => simp [Cb.sizeList]
  | cons c cs ih => simp [Cb.sizeList, ih]; omega

theorem Cb.size_pos (c : Cb) : 0 < c.size := by
  rw [Cb.size_def]; omega

theorem Cb.allIds_def (c : Cb) : c.allIds = c.id :: Cb.allIdsList c.reenq := by
  cases c with
  | mk i cs => rfl

theorem Cb.allIdsList_append (a b : List Cb) :
    Cb.allIdsList (a ++ b) = Cb.allIdsList a ++ Cb.allIdsList b := by
  induction a with
  | nil => simp [Cb.allIdsList]
  | cons c cs ih => simp [Cb.allIdsList, ih]

theorem Cb.sizeList_eq_zero {q : List Cb} (h : Cb.sizeList q = 0) : q = [] := by
  cases q with
  | nil => rfl
  | cons c cs =>
      exfalso
      have := Cb.size_pos c
      simp [Cb.sizeList] at h
      omega

theorem StartQueryInfo_callbacks (cb : Cb) (s : ProviderState) :
    (StartQueryInfo cb s).callbacks = s.callbacks ++ [cb] := by
  simp only [StartQueryInfo, InitializeProvider, StartQueryInfoPostInitialization]
  split <;> rfl

theorem startAll_callbacks (cbs : List Cb) (s : ProviderState) :
    (startAll cbs s).callbacks = s.callbacks ++ cbs := by
  induction cbs generalizing s with
  | nil => simp [startAll]
  | cons c cs ih =>
      show (startAll cs (StartQueryInfo c s)).callbacks = _
      rw [ih, StartQueryInfo_callbacks]
      simp

theorem runCallback_callbacks (success : Bool) (c : Cb) (s : ProviderState) :
    (runCallback success c s).callbacks = s.callbacks ++ c.reenq := by
  unfold runCallback
  rw [startAll_callbacks]

theorem drain_nil (success : Bool) : drain success [] = [] := by
  unfold drain
  rfl

theorem drain_cons (success : Bool) (c : Cb) (rest : List Cb) :
    drain success (c :: rest) =
      (c.id, success) :: drain success (rest ++ c.reenq) := by
  conv_lhs => unfold drain

theorem drainIds_nil : drainIds [] = [] := by
  unfold drainIds
  rfl

theorem drainIds_cons (c : Cb) (rest : List Cb) :
    drainIds (c :: rest) = c.id :: drainIds (rest ++ c.reenq) := by
  conv_lhs => unfold drainIds

/-- The drain events are exactly the drained labels, each paired with the
    one outcome of the cycle. -/
theorem drain_eq_ids (success : Bool) (q : List Cb) :
    drain success q = (drainIds q).map (fun i => (i, success)) := by
  suffices h : ∀ n q, Cb.sizeList q ≤ n →
      drain success q = (drainIds q).map (fun i => (i, success)) by
    exact h (Cb.sizeList q) q le_rfl
  intro n
  induction n with
  | zero =>
      intro q hq
      have : q = [] := Cb.sizeList_eq_zero (Nat.le_zero.mp hq)
      subst this
      simp [drain_nil, drainIds_nil]
  | succ n ih =>
      intro q hq
      cases q with
      | nil => simp [drain_nil, drainIds_nil]
      | cons c rest =>
          rw [drain_cons, drainIds_cons, List.map_cons]
          congr 1
          apply ih
          simp only [Cb.sizeList, Cb.sizeList_append] at hq ⊢
          rw [Cb.size_def c] at hq
          omega

/-- The drained labels are a permutation of every label registered,
    directly or re-entrantly, by the queue: each registered callback is
    invoked exactly once. -/
theorem drainIds_perm (q : List Cb) :
    (drainIds q).Perm (Cb.allIdsList q) := by
  suffices h : ∀ n q, Cb.sizeList q ≤ n → (drainIds q).Perm (Cb.allIdsList q) by
    exact h (Cb.sizeList q) q le_rfl
  intro n
  induction n with
  | zero =>
      intro q hq
      have : q = [] := Cb.sizeList_eq_zero (Nat.le_zero.mp hq)
      subst this
      simp [drainIds_nil, Cb.allIdsList]
  | succ n ih =>
      intro q hq
      cases q with
      | nil => simp [drainIds_nil, Cb.allIdsList]
      | cons c rest =>
          rw [drainIds_cons]
          have hsz : Cb.sizeList (rest ++ c.reenq) ≤ n := by
            simp only [Cb.sizeList, Cb.sizeList_append] at hq ⊢
            rw [Cb.size_def c] at hq
            omega
          have hperm := ih (rest ++ c.reenq) hsz
          rw [Cb.allIdsList_append] at hperm
          refine List.Perm.trans (hperm.cons c.id) ?_
          have hsplit : Cb.allIdsList (c :: rest) =
              c.id :: (Cb.allIdsList c.reenq ++ Cb.allIdsList rest) := by
            simp [Cb.allIdsList, Cb.allIds_def]
          rw [hsplit]
          exact List.perm_append_comm.cons c.id

/-- FIFO prefix law of the drain: the queued callbacks are invoked first,
    in queue order; the callbacks they re-enqueue are drained afterwards,
    again in order. -/
theorem drain_append (success : Bool) (q extra : List Cb) :
    drain success (q ++ extra) =
      q.map (fun c => (c.id, success)) ++
        drain success (extra ++ reenqAll q) := by
  induction q generalizing extra with
  | nil => simp [reenqAll]
  | cons c rest ih =>
      rw [List.cons_append, drain_cons, List.append_assoc, ih]
      simp [reenqAll]

theorem drain_snd (success : Bool) (q : List Cb) :
    ∀ e ∈ drain success q, e.2 = success := by
  rw [drain_eq_ids]
  intro e he
  obtain ⟨i, hi, rfl⟩ := List.mem_map.mp he
  rfl

theorem mem_allIdsList_of_mem {c : Cb} {q : List Cb} (h : c ∈ q) :
    c.id ∈ Cb.allIdsList q := by
  induction q with
  | nil => cases h
  | cons d ds ih =>
      rcases List.mem_cons.mp h with rfl | h2
      · simp [Cb.allIdsList, Cb.allIds_def]
      · simp [Cb.allIdsList, ih h2]

theorem allIds_subset_of_mem {c : Cb} {q : List Cb} (h : c ∈ q) :
    ∀ i ∈ c.allIds, i ∈ Cb.allIdsList q := by
  induction q with
  | nil => cases h
  | cons d ds ih =>
      intro i hi
      rcases List.mem_cons.mp h with rfl | h2
      · simp [Cb.allIdsList]
        exact Or.inl hi
      · simp [Cb.allIdsList]
        exact Or.inr (ih h2 i hi)

theorem mem_drain_of_mem_allIds {i : Nat} {q : List Cb}
    (h : i ∈ Cb.allIdsList q) (success : Bool) :
    (i, success) ∈ drain success q := by
  rw [drain_eq_ids]
  exact List.mem_map.mpr ⟨i, ((drainIds_perm q).mem_iff).mpr h, rfl⟩

/-- While a query is in flight, `StartQueryInfo` only enqueues: no flag
    change, no preparation, no dispatch. -/
theorem StartQueryInfo_waiting (cb : Cb) (s : ProviderState)
    (h : s.is_waiting_for_completion = true) :
    StartQueryInfo cb s = { s with callbacks := s.callbacks ++ [cb] } := by
  simp only [StartQueryInfo]
  rw [if_pos]
  exact h

/-- From an idle state, `StartQueryInfo` enqueues, raises the flag, runs
    the preparation path once and dispatches the query operation once. -/
theorem StartQueryInfo_idle (cb : Cb) (s : ProviderState)
    (h : s.is_waiting_for_completion = false) :
    StartQueryInfo cb s =
      { callbacks := s.callbacks ++ [cb], is_waiting_for_completion := true,
        dispatch_count := s.dispatch_count + 1,
        prepare_count := s.prepare_count + 1, events := s.events } := by
  simp only [StartQueryInfo, InitializeProvider, StartQueryInfoPostInitialization]
  rw [if_neg]
  simp [h]

theorem StartQueryInfo_flag (cb : Cb) (s : ProviderState) :
    (StartQueryInfo cb s).is_waiting_for_completion = true := by
  by_cases h : s.is_waiting_for_completion = true
  · rw [StartQueryInfo_waiting cb s h]; exact h
  · rw [StartQueryInfo_idle cb s (Bool.not_eq_true _ |>.mp h)]

theorem startAll_waiting (cbs : List Cb) (s : ProviderState)
    (h : s.is_waiting_for_completion = true) :
    startAll cbs s = { s with callbacks := s.callbacks ++ cbs } := by
  induction cbs generalizing s with
  | nil => simp [startAll]
  | cons c cs ih =>
      show startAll cs (StartQueryInfo c s) = _
      rw [StartQueryInfo_waiting c s h,
        ih { s with callbacks := s.callbacks ++ [c] } h]
      simp

/-- From an idle state, a non-empty burst of `StartQueryInfo` calls
    enqueues everything, dispatches once, and prepares once. -/
theorem startAll_idle (cbs : List Cb) (s : ProviderState)
    (hflag : s.is_waiting_for_completion = false) (hne : cbs ≠ []) :
    startAll cbs s =
      { callbacks := s.callbacks ++ cbs, is_waiting_for_completion := true,
        dispatch_count := s.dispatch_count + 1,
        prepare_count := s.prepare_count + 1, events := s.events } := by
  cases cbs with
  | nil => cases hne rfl
  | cons c rest =>
      show startAll rest (StartQueryInfo c s) = _
      rw [StartQueryInfo_idle c s hflag]
      rw [startAll_waiting rest ⟨s.callbacks ++ [c], true,
        s.dispatch_count + 1, s.prepare_count + 1, s.events⟩ rfl]
      simp

theorem runCallback_waiting (success : Bool) (c : Cb) (s : ProviderState)
    (h : s.is_waiting_for_completion = true) :
    runCallback success c s =
      { s with callbacks := s.callbacks ++ c.reenq,
               events := s.events ++ [(c.id, success)] } := by
  unfold runCallback
  rw [startAll_waiting c.reenq
    { s with events := s.events ++ [(c.id, success)] } h]

theorem drainLoop_nil (success : Bool) (s : ProviderState)
    (h : s.callbacks = []) : drainLoop success s = s := by
  conv_lhs => unfold drainLoop
  split
  · rfl
  · next c rest h2 => rw [h] at h2; cases h2

theorem drainLoop_cons (success : Bool) (s : ProviderState) (c : Cb)
    (rest : List Cb) (h : s.callbacks = c :: rest) :
    drainLoop success s =
      drainLoop success (popFront (runCallback success c s)) := by
  conv_lhs => unfold drainLoop
  split
  · next h2 => rw [h] at h2; cases h2
  · next c2 rest2 h2 =>
      rw [h] at h2
      injection h2 with hc hr
      rw [hc]

/-- Run of the drain loop from a state with the in-flight flag set: it
    empties the queue, leaves flag and counters untouched, and appends
    exactly the `drain` events to the log. -/
theorem drainLoop_waiting (success : Bool) (s : ProviderState)
    (h : s.is_waiting_for_completion = true) :
    drainLoop success s =
      { callbacks := [], is_waiting_for_completion := true,
        dispatch_count := s.dispatch_count, prepare_count := s.prepare_count,
        events := s.events ++ drain success s.callbacks } := by
  suffices hgen : ∀ n (s : ProviderState), Cb.sizeList s.callbacks ≤ n →
      s.is_waiting_for_completion = true →
      drainLoop success s =
        { callbacks := [], is_waiting_for_completion := true,
          dispatch_count := s.dispatch_count, prepare_count := s.prepare_count,
          events := s.events ++ drain success s.callbacks } by
    exact hgen (Cb.sizeList s.callbacks) s le_rfl h
  intro n
  induction n with
  | zero =>
      intro s hsz hflag
      obtain ⟨cbs, w, d, p, e⟩ := s
      simp only at hsz hflag
      subst hflag
      have hnil : cbs = [] := Cb.sizeList_eq_zero (Nat.le_zero.mp hsz)
      subst hnil
      rw [drainLoop_nil success _ rfl]
      simp [drain_nil]
  | succ n ih =>
      intro s hsz hflag
      obtain ⟨cbs, w, d, p, e⟩ := s
      simp only at hsz hflag
      subst hflag
      cases cbs with
      | nil =>
          rw [drainLoop_nil success _ rfl]
          simp [drain_nil]
      | cons c rest =>
          rw [drainLoop_cons success _ c rest rfl]
          rw [runCallback_waiting success c _ rfl]
          simp only
          have hpop : popFront
              { callbacks := (c :: rest) ++ c.reenq,
                is_waiting_for_completion := true, dispatch_count := d,
                prepare_count := p, events := e ++ [(c.id, success)] } =
              { callbacks := rest ++ c.reenq,
                is_waiting_for_completion := true, dispatch_count := d,
                prepare_count := p, events := e ++ [(c.id, success)] } := by
            simp [popFront]
          rw [hpop]
          have hsz2 : Cb.sizeList (rest ++ c.reenq) ≤ n := by
            simp only [Cb.sizeList, Cb.sizeList_append] at hsz ⊢
            rw [Cb.size_def c] at hsz
            omega
          have hrec := ih ⟨rest ++ c.reenq, true, d, p,
            e ++ [(c.id, success)]⟩ hsz2 rfl
          rw [hrec]
          simp [drain_cons]

/-- The drain loop always empties the queue, whatever the flag state. -/
theorem drainLoop_callbacks (success : Bool) (s : ProviderState) :
    (drainLoop success s).callbacks = [] := by
  suffices hgen : ∀ n (s : ProviderState), Cb.sizeList s.callbacks ≤ n →
      (drainLoop success s).callbacks = [] by
    exact hgen (Cb.sizeList s.callbacks) s le_rfl
  intro n
  induction n with
  | zero =>
      intro s hsz
      have hnil : s.callbacks = [] := Cb.sizeList_eq_zero (Nat.le_zero.mp hsz)
      rw [drainLoop_nil success s hnil]
      exact hnil
  | succ n ih =>
      intro s hsz
      cases hq : s.callbacks with
      | nil => rw [drainLoop_nil success s hq]; exact hq
      | cons c rest =>
          rw [drainLoop_cons success s c rest hq]
          apply ih
          rw [hq] at hsz
          simp only [Cb.sizeList] at hsz
          rw [Cb.size_def c] at hsz
          simp only [popFront, runCallback_callbacks, hq, List.cons_append,
            List.tail_cons, Cb.sizeList_append]
          omega

/-- `OnQueryCompleted` from an in-flight state: delivers the `drain` events,
    empties the queue and clears the flag; counters unchanged, so no new
    dispatch happens from inside the completion path. -/
theorem OnQueryCompleted_waiting (success : Bool) (s : ProviderState)
    (h : s.is_waiting_for_completion = true) :
    OnQueryCompleted success s =
      { callbacks := [], is_waiting_for_completion := false,
        dispatch_count := s.dispatch_count, prepare_count := s.prepare_count,
        events := s.events ++ drain success s.callbacks } := by
  unfold OnQueryCompleted
  rw [drainLoop_waiting success s h]

theorem OnQueryCompleted_callbacks (success : Bool) (s : ProviderState) :
    (OnQueryCompleted success s).callbacks = [] := by
  unfold OnQueryCompleted
  simp [drainLoop_callbacks]

theorem OnQueryCompleted_flag (success : Bool) (s : ProviderState) :
    (OnQueryCompleted success s).is_waiting_for_completion = false := rfl

theorem queueFlagInv_applyOp (s : ProviderState) (op : Op) :
    QueueFlagInv (applyOp s op) := by
  cases op with
  | start cb =>
      intro hflag
      rw [show applyOp s (Op.start cb) = StartQueryInfo cb s from rfl,
        StartQueryInfo_flag] at hflag
      cases hflag
  | complete success =>
      intro hflag
      exact OnQueryCompleted_callbacks success s

theorem queueFlagInv_run (ops : List Op) (s : ProviderState)
    (h : QueueFlagInv s) : QueueFlagInv (run ops s) := by
  induction ops generalizing s with
  | nil => exact h
  | cons op rest ih => exact ih (applyOp s op) (queueFlagInv_applyOp s op)

theorem drainFuelCb_complete (success : Bool) :
    ∀ n (q : List Cb), Cb.sizeList q ≤ n →
      drainFuelCb success n q = some (drain success q) := by
  intro n
  induction n with
  | zero =>
      intro q hq
      have hnil : q = [] := Cb.sizeList_eq_zero (Nat.le_zero.mp hq)
      subst hnil
      simp [drainFuelCb, drain_nil]
  | succ n ih =>
      intro q hq
      cases q with
      | nil => simp [drainFuelCb, drain_nil]
      | cons c rest =>
          have hsz : Cb.sizeList (rest ++ c.reenq) ≤ n := by
            simp only [Cb.sizeList, Cb.sizeList_append] at hq ⊢
            rw [Cb.size_def c] at hq
            omega
          simp [drainFuelCb, ih _ hsz, drain_cons]

theorem drainFuelB_behCycle (success : Bool) :
    ∀ (fuel : Nat) (q : List Nat), q ≠ [] →
      drainFuelB behCycle success fuel q = none := by
  intro fuel
  induction fuel with
  | zero =>
      intro q hq
      cases q with
      | nil => cases hq rfl
      | cons i rest => simp [drainFuelB]
  | succ fuel ih =>
      intro q hq
      cases q with
      | nil => cases hq rfl
      | cons i rest =>
          have hne : rest ++ behCycle i ≠ [] := by
            simp [behCycle]
          simp [drainFuelB, ih _ hne]

/-- C1: from an idle provider, any non-empty burst of `StartQueryInfo`
    calls made before the query completes dispatches the query operation
    exactly once; every call made while `is_waiting_for_completion_` is
    true only enqueues its callback and returns; completion performs no
    further dispatch and every burst callback receives the outcome of that
    single execution. -/
theorem c1_coalescing (s : ProviderState) (cbs : List Cb) (success : Bool)
    (hflag : s.is_waiting_for_completion = false) (hq : s.callbacks = [])
    (hne : cbs ≠ []) :
    (startAll cbs s).dispatch_count = s.dispatch_count + 1 ∧
    (∀ (cb : Cb) (t : ProviderState), t.is_waiting_for_completion = true →
        StartQueryInfo cb t = { t with callbacks := t.callbacks ++ [cb] }) ∧
    (OnQueryCompleted success (startAll cbs s)).dispatch_count
        = s.dispatch_count + 1 ∧
    ∀ c ∈ cbs, (c.id, success) ∈
        (OnQueryCompleted success (startAll cbs s)).events := by
  have hstart := startAll_idle cbs s hflag hne
  rw [hq] at hstart
  simp only [List.nil_append] at hstart
  refine ⟨by rw [hstart], fun cb t ht => StartQueryInfo_waiting cb t ht,
    ?_, ?_⟩
  · rw [hstart, OnQueryCompleted_waiting _ _ rfl]
  · intro c hc
    rw [hstart, OnQueryCompleted_waiting _ _ rfl]
    simp only
    exact List.mem_append_right _
      (mem_drain_of_mem_allIds (mem_allIdsList_of_mem hc) success)

/-- Witness for C1 at a two-callback burst from the freshly constructed
    state. -/
theorem c1_coalescing_witness :
    ([cbW, cbX] : List Cb) ≠ [] ∧
    (startAll [cbW, cbX] initState).dispatch_count
        = initState.dispatch_count + 1 :=
  ⟨by simp, (c1_coalescing initState [cbW, cbX] true rfl rfl (by simp)).1⟩

/-- C2: exactly-once FIFO delivery: completing a drain cycle appends the
    drain events to the log; the invoked labels are a permutation of every
    registered label (each `StartQueryInfo` call is served exactly once);
    and the queued callbacks are invoked first, in call order, with the
    re-entrantly added ones drained after them, again in order. -/
theorem c2_fifo_exactly_once (s : ProviderState) (success : Bool)
    (hflag : s.is_waiting_for_completion = true) :
    (OnQueryCompleted success s).events
        = s.events ++ drain success s.callbacks ∧
    ((drain success s.callbacks).map Prod.fst).Perm
        (Cb.allIdsList s.callbacks) ∧
    drain success s.callbacks =
      s.callbacks.map (fun c => (c.id, success)) ++
        drain success (reenqAll s.callbacks) := by
  refine ⟨by rw [OnQueryCompleted_waiting success s hflag], ?_, ?_⟩
  · have h2 : ∀ l : List Nat,
        l.map (Prod.fst ∘ fun i => (i, success)) = l := by
      intro l
      induction l with
      | nil => rfl
      | cons a as ih => simp [ih, Function.comp]
    rw [drain_eq_ids, List.map_map, h2]
    exact drainIds_perm s.callbacks
  · have h := drain_append success s.callbacks []
    simpa using h

/-- Witness for C2 at an in-flight state holding a plain and a re-entrant
    callback. -/
theorem c2_fifo_exactly_once_witness :
    sWaiting.is_waiting_for_completion = true ∧
    (OnQueryCompleted true sWaiting).events
        = sWaiting.events ++ drain true sWaiting.callbacks :=
  ⟨rfl, (c2_fifo_exactly_once sWaiting true rfl).1⟩

/-- C3: a callback re-enqueued from inside the drain loop is invoked with
    the same success value in the same drain cycle, the cycle performs no
    further dispatch, and the loop exits with an empty queue. -/
theorem c3_reentrant_drain (s : ProviderState) (success : Bool) (c cb2 : Cb)
    (hflag : s.is_waiting_for_completion = true)
    (hmem : c ∈ s.callbacks) (hre : cb2 ∈ c.reenq) :
    (OnQueryCompleted success s).dispatch_count = s.dispatch_count ∧
    (cb2.id, success) ∈ drain success s.callbacks ∧
    (OnQueryCompleted success s).events
        = s.events ++ drain success s.callbacks ∧
    (OnQueryCompleted success s).callbacks = [] := by
  have hid : cb2.id ∈ Cb.allIdsList s.callbacks := by
    apply allIds_subset_of_mem hmem
    rw [Cb.allIds_def]
    exact List.mem_cons_of_mem _ (mem_allIdsList_of_mem hre)
  refine ⟨by rw [OnQueryCompleted_waiting success s hflag],
    mem_drain_of_mem_allIds hid success,
    by rw [OnQueryCompleted_waiting success s hflag],
    OnQueryCompleted_callbacks success s⟩

/-- Witness for C3: callback 2 re-requests with callback 3, which is
    served within the same cycle and without a second dispatch. -/
theorem c3_reentrant_drain_witness :
    cbR ∈ sWaiting.callbacks ∧
    ((Cb.mk 3 []).id, true) ∈ drain true sWaiting.callbacks ∧
    (OnQueryCompleted true sWaiting).dispatch_count
        = sWaiting.dispatch_count := by
  have h := c3_reentrant_drain sWaiting true cbR (Cb.mk 3 []) rfl
    (by simp [sWaiting]) (by simp [cbR, Cb.reenq])
  exact ⟨by simp [sWaiting], h.2.1, h.1⟩

/-- C4: one drain cycle delivers one uniform outcome: every drained event
    carries the cycle's success value, failure is delivered through the
    very same completion path as success (same events equation, same
    invocation order), and completion never re-dispatches. -/
theorem c4_uniform_outcome (s : ProviderState) (success : Bool)
    (hflag : s.is_waiting_for_completion = true) :
    (∀ e ∈ drain success s.callbacks, e.2 = success) ∧
    (OnQueryCompleted success s).events
        = s.events ++ drain success s.callbacks ∧
    (OnQueryCompleted false s).dispatch_count = s.dispatch_count ∧
    (drain false s.callbacks).map Prod.fst
        = (drain true s.callbacks).map Prod.fst := by
  refine ⟨drain_snd success s.callbacks,
    by rw [OnQueryCompleted_waiting success s hflag],
    by rw [OnQueryCompleted_waiting false s hflag], ?_⟩
  rw [drain_eq_ids, drain_eq_ids]
  simp [List.map_map, Function.comp]

/-- Witness for C4: a failed completion on a loaded queue does not
    re-dispatch. -/
theorem c4_uniform_outcome_witness :
    sWaiting.is_waiting_for_completion = true ∧
    (OnQueryCompleted false sWaiting).dispatch_count
        = sWaiting.dispatch_count :=
  ⟨rfl, (c4_uniform_outcome sWaiting true rfl).2.2.1⟩

/-- C5: when the worker pool cannot schedule the query task, the
    spec-modelled dispatch path still drives the coordinator back to idle:
    flag cleared, queue emptied, and every queued callback invoked with a
    failure outcome. -/
theorem c5_shutdown_failure (s : ProviderState) (queryResult : Bool)
    (hflag : s.is_waiting_for_completion = true) :
    (RunQueryDispatch false queryResult s).is_waiting_for_completion
        = false ∧
    (RunQueryDispatch false queryResult s).callbacks = [] ∧
    (RunQueryDispatch false queryResult s).events
        = s.events ++ drain false s.callbacks ∧
    ∀ e ∈ drain false s.callbacks, e.2 = false := by
  have hd : RunQueryDispatch false queryResult s = OnQueryCompleted false s := by
    simp [RunQueryDispatch]
  rw [hd]
  exact ⟨rfl, OnQueryCompleted_callbacks false s,
    by rw [OnQueryCompleted_waiting false s hflag],
    drain_snd false s.callbacks⟩

/-- Witness for C5 at the loaded in-flight state. -/
theorem c5_shutdown_failure_witness :
    sWaiting.is_waiting_for_completion = true ∧
    (RunQueryDispatch false true sWaiting).callbacks = [] :=
  ⟨rfl, (c5_shutdown_failure sWaiting true rfl).2.1⟩

/-- C6: the queue/flag invariant holds at every quiescent point of every
    control-thread execution from the initial state; `StartQueryInfo`
    pushes its callback unconditionally (before the flag test) and leaves
    the flag raised with a non-empty queue; `OnQueryCompleted` exits with
    an empty queue and the flag down. -/
theorem c6_queue_flag_invariant :
    (∀ ops : List Op, QueueFlagInv (run ops initState)) ∧
    (∀ (cb : Cb) (s : ProviderState),
        (StartQueryInfo cb s).callbacks = s.callbacks ++ [cb]) ∧
    (∀ (cb : Cb) (s : ProviderState),
        (StartQueryInfo cb s).is_waiting_for_completion = true ∧
        (StartQueryInfo cb s).callbacks ≠ []) ∧
    (∀ (success : Bool) (s : ProviderState),
        (OnQueryCompleted success s).callbacks = [] ∧
        (OnQueryCompleted success s).is_waiting_for_completion = false) := by
  refine ⟨fun ops => queueFlagInv_run ops initState (fun _ => rfl),
    StartQueryInfo_callbacks, fun cb s => ⟨StartQueryInfo_flag cb s, ?_⟩,
    fun success s => ⟨OnQueryCompleted_callbacks success s, rfl⟩⟩
  rw [StartQueryInfo_callbacks]
  simp

/-- Witness for C6 after a start/complete round trip. -/
theorem c6_queue_flag_invariant_witness :
    (run [Op.start cbW, Op.complete true] initState).is_waiting_for_completion
        = false ∧
    (run [Op.start cbW, Op.complete true] initState).callbacks = [] :=
  ⟨rfl, c6_queue_flag_invariant.1 [Op.start cbW, Op.complete true] rfl⟩

/-- C7: after a drain cycle completes the provider is idle again, and the
    next `StartQueryInfo` runs a fresh cycle: flag raised, queue holding
    only the new callback, preparation run and query dispatched a second
    time, with no state carried over. -/
theorem c7_idle_reuse (s s1 : ProviderState) (cb cb2 : Cb) (cbs : List Cb)
    (success : Bool)
    (hflag : s.is_waiting_for_completion = false) (hq : s.callbacks = [])
    (hs1 : s1 = OnQueryCompleted success (startAll (cb :: cbs) s)) :
    s1.is_waiting_for_completion = false ∧
    s1.callbacks = [] ∧
    (StartQueryInfo cb2 s1).is_waiting_for_completion = true ∧
    (StartQueryInfo cb2 s1).callbacks = [cb2] ∧
    (StartQueryInfo cb2 s1).dispatch_count = s.dispatch_count + 2 ∧
    (StartQueryInfo cb2 s1).prepare_count = s.prepare_count + 2 := by
  have hstart := startAll_idle (cb :: cbs) s hflag (by simp)
  rw [hq] at hstart
  simp only [List.nil_append] at hstart
  have hs1c : s1 =
      { callbacks := [], is_waiting_for_completion := false,
        dispatch_count := s.dispatch_count + 1,
        prepare_count := s.prepare_count + 1,
        events := s.events ++ drain success (cb :: cbs) } := by
    rw [hs1, hstart, OnQueryCompleted_waiting _ _ rfl]
  subst hs1c
  rw [StartQueryInfo_idle _ _ rfl]
  exact ⟨rfl, rfl, rfl, rfl, rfl, rfl⟩

/-- Witness for C7: a full cycle on callback 0 followed by a fresh request
    with callback 1 dispatches a second time. -/
theorem c7_idle_reuse_witness :
    (OnQueryCompleted true (startAll [cbW] initState)).callbacks = [] ∧
    (StartQueryInfo cbX
        (OnQueryCompleted true (startAll [cbW] initState))).dispatch_count
      = initState.dispatch_count + 2 := by
  have h := c7_idle_reuse initState
    (OnQueryCompleted true (startAll [cbW] initState)) cbW cbX [] true
    rfl rfl rfl
  exact ⟨h.2.1, h.2.2.2.2.1⟩

/-- C8: the lazy holder constructs the shared instance exactly once — a
    second `GetInstance` returns the same instance and does not construct
    again, the first call from the empty holder constructs exactly one
    instance — and an instance stored by `InitializeForTesting` is what
    every later `GetInstance` returns. -/
theorem c8_singleton_registry (r : Registry) (i : Nat) :
    (GetInstance (GetInstance r).2).1 = (GetInstance r).1 ∧
    (GetInstance (GetInstance r).2).2 = (GetInstance r).2 ∧
    (GetInstance emptyRegistry).2.next_id = emptyRegistry.next_id + 1 ∧
    (GetInstance (GetInstance emptyRegistry).2).2.next_id
        = emptyRegistry.next_id + 1 ∧
    (GetInstance (InitializeForTesting i r)).1 = i ∧
    (GetInstance (InitializeForTesting i r)).2 = InitializeForTesting i r := by
  rcases r with ⟨slot, nid⟩
  cases slot <;> simp [GetInstance, InitializeForTesting, emptyRegistry]

/-- C10: drain termination: the drain loop finishes within `sizeList q`
    iterations on every queue of modelled callbacks (in particular on any
    queue of callbacks that never re-request), `OnQueryCompleted` always
    returns with an empty queue and the flag down, while the unconditional
    re-requester exhausts any finite fuel. -/
theorem c10_drain_termination :
    (∀ (success : Bool) (q : List Cb),
        drainFuelCb success (Cb.sizeList q) q = some (drain success q)) ∧
    (∀ (success : Bool) (s : ProviderState),
        (OnQueryCompleted success s).callbacks = [] ∧
        (OnQueryCompleted success s).is_waiting_for_completion = false) ∧
    (∀ (success : Bool) (fuel : Nat) (q : List Nat), q ≠ [] →
        drainFuelB behCycle success fuel q = none) :=
  ⟨fun success q => drainFuelCb_complete success (Cb.sizeList q) q le_rfl,
    fun success s => ⟨OnQueryCompleted_callbacks success s, rfl⟩,
    fun success fuel q h => drainFuelB_behCycle success fuel q h⟩

/-- Witness for C10: the unconditional re-requester exhausts fuel 5 from a
    singleton queue. -/
theorem c10_drain_termination_witness :
    ([0] : List Nat) ≠ [] ∧ drainFuelB behCycle true 5 [0] = none :=
  ⟨by simp, c10_drain_termination.2.2 true 5 [0] (by simp)⟩

end SystemInfoProvider

namespace SqliteDiagnostics

/-- C9 counterexample: with the file present, the database opening, no
    error-callback activity, and statement preparation failing with error
    code 1 (not `SQLITE_BUSY`), `ExecuteImpl` records the pragma-failed
    outcome, which lies outside the claim's outcome set
    `{ok, corrupted(n), notFound, cannotOpen, locked}`. -/
theorem c9_counterexample :
    ExecuteImpl true cexEnv = SqliteOutcome.pragmaFailed 1 ∧
    inClaimedOutcomeSet (ExecuteImpl true cexEnv) = false := by
  constructor <;> decide

/-- C9 amended: read at the spec's alphabet (both not-found codes as
    `notFound`), `ExecuteImpl` classifies every run exactly as the
    spec-level `CheckIntegrity` extended with the `handlerError` and
    `pragmaFail` outcomes: missing file to `notFound`, failed open to
    `cannotOpen`, a fired error callback to `handlerError`, `SQLITE_BUSY`
    on an unpreparable pragma to `locked` and any other code to
    `pragmaFail`, `n > 0` non-ok rows to `corrupted(n)`, otherwise `ok` —
    independently of the criticality flag. -/
theorem c9_integrity_classification (critical : Bool) (env : DbEnv) :
    toSpecOutcome (ExecuteImpl critical env) = CheckIntegrity env := by
  rcases env with ⟨pe, oo, eao, eap, sv, ec, rows, eas⟩
  by_cases hec : ec = SQLITE_BUSY <;>
  by_cases hr : countNonOk rows = 0 <;>
  cases pe <;> cases oo <;> cases eao <;> cases eap <;> cases sv <;>
    cases eas <;> cases critical <;>
    simp [ExecuteImpl, CheckIntegrity, toSpecOutcome, hec, hr,
      Nat.pos_iff_ne_zero]

end SqliteDiagnostics
